import Mathlib

/-!
Verification of the notes backend (`src/notes_backend/src/api/`).

Shallow embedding of the data-access layer (`dao.py`), the pydantic models
(`models.py`) and the request handlers (`main.py`).

Modelling choices:
* A sqlite connection holding the `notes` table is a `Store`: a list of rows
  plus the auto-increment counter for the next assigned id
  (sqlite's `lastrowid` of an `INSERT`).
* Timestamps (`created_at` / `updated_at`) are `Nat` clock readings; sqlite's
  `CURRENT_TIMESTAMP` is the external `now` argument of the operations that
  touch timestamps, and `ORDER BY datetime(updated_at)` compares those
  readings numerically.
* Row ids are `Int` (Python ints): the handlers are fed arbitrary integers
  and validate `id >= 1` themselves (`Field(..., ge=1)` in `main.py`).
* `Optional[T]` is `Option T`; `cur.fetchone()` on a `WHERE id = ?` query is
  `List.find?`; a raised `sqlite3.IntegrityError` is `Except.error`.
-/

namespace NotesApp

/-- Model of `Note` (`models.py`): a persisted note row
(`id`, `title`, `content`, `created_at`, `updated_at`). -/
structure Note where
  id : Int
  title : String
  content : String
  created_at : Nat
  updated_at : Nat
deriving DecidableEq, Repr

/-- Model of `NoteCreate` (`models.py`): request body for creating a note. -/
structure NoteCreate where
  title : String
  content : String
deriving DecidableEq, Repr

/-- Model of `NoteUpdate` (`models.py`): request body for a partial update;
absent fields are `none`. -/
structure NoteUpdate where
  title : Option String
  content : Option String
deriving DecidableEq, Repr

/-- The sqlite `notes` table reached through a connection: the stored rows
together with the auto-increment counter that supplies the next `id`. -/
structure Store where
  rows : List Note
  nextId : Int
deriving DecidableEq, Repr

/-- Validation applied by pydantic to `NoteCreate`
(`Field(..., min_length=1)` on both fields): title and content non-empty. -/
def NoteCreate.Valid (p : NoteCreate) : Prop :=
  p.title ≠ "" ∧ p.content ≠ ""

/-- Validation applied by pydantic to `NoteUpdate`
(`Field(None, min_length=1)`): each field, when present, is non-empty. -/
def NoteUpdate.Valid (p : NoteUpdate) : Prop :=
  (∀ t ∈ p.title, t ≠ "") ∧ ∀ c ∈ p.content, c ≠ ""

/-- Model of `get_note` (`dao.py`): `SELECT ... FROM notes WHERE id = ?` followed by
`fetchone()`; `None` when no row matches. -/
def get_note (s : Store) (note_id : Int) : Option Note :=
  s.rows.find? (fun n => n.id == note_id)

/-- The `ORDER BY datetime(updated_at) DESC, id DESC` comparison used by
`list_notes`: `a` sorts before `b` when `a.updated_at` is larger, ties broken
by the larger `id`. -/
def noteOrd (a b : Note) : Bool :=
  decide (b.updated_at < a.updated_at) ||
    (decide (a.updated_at = b.updated_at) && decide (b.id ≤ a.id))

/-- Model of `list_notes` (`dao.py`): `SELECT` of all rows ordered by
`datetime(updated_at) DESC, id DESC`. -/
def list_notes (s : Store) : List Note :=
  s.rows.mergeSort noteOrd

/-- Modelled from the spec: the `notes` table schema is created in
`src/api/db.py`, which is not under `src/`; `dao.py`'s `INSERT` supplies only
`title` and `content`. Per the spec, on insert the "store assigns `id`,
`created_at`, `updated_at` (both timestamps set to the same creation
instant)" — modelled as the auto-increment counter supplying the id and
column defaults filling both timestamps with the current time `now`. -/
def insertRow (s : Store) (title content : String) (now : Nat) : Store :=
  { rows := s.rows ++
      [{ id := s.nextId, title := title, content := content,
         created_at := now, updated_at := now }],
    nextId := s.nextId + 1 }

/-- Modelled from the spec: the schema in `src/api/db.py` (absent from
`src/`) is what refreshes `updated_at`, since `dao.py`'s `UPDATE` statement
writes only `title` and `content`. Per the spec, update operations "write
`title`, `content` with merged values and refresh `updated_at` to the current
time; `created_at` and `id` untouched" — modelled as the row write setting
`updated_at := now` alongside the two columns. -/
def writeRow (n : Note) (title content : String) (now : Nat) : Note :=
  { n with title := title, content := content, updated_at := now }

/-- Model of `create_note` (`dao.py`): `INSERT` the payload, read the new row back via
`get_note` on `lastrowid`, raise `sqlite3.IntegrityError` if the readback
returns `None`, otherwise return the read-back note. -/
def create_note (s : Store) (payload : NoteCreate) (now : Nat) :
    Except String (Note × Store) :=
  let s1 := insertRow s payload.title payload.content now
  match get_note s1 s.nextId with
  | none => Except.error "Failed to read back created note"
  | some created => Except.ok (created, s1)

/-- Model of `update_note` (`dao.py`): look up the existing row (`None` if absent),
merge each payload field over the stored value when present, `UPDATE` the
matching row, and return the row read back after the write. -/
def update_note (s : Store) (note_id : Int) (payload : NoteUpdate) (now : Nat) :
    Option Note × Store :=
  match get_note s note_id with
  | none => (none, s)
  | some existing =>
    let new_title := payload.title.getD existing.title
    let new_content := payload.content.getD existing.content
    let s1 : Store :=
      { s with rows := s.rows.map fun n =>
          if n.id == note_id then writeRow n new_title new_content now else n }
    (get_note s1 note_id, s1)

/-- Model of `delete_note` (`dao.py`): `DELETE FROM notes WHERE id = ?`; returns
`cur.rowcount > 0`, i.e. whether any row was removed. -/
def delete_note (s : Store) (note_id : Int) : Bool × Store :=
  let remaining := s.rows.filter fun n => !(n.id == note_id)
  (decide (remaining.length < s.rows.length), { s with rows := remaining })

/-- Outcome of a request handler in `main.py`: a successful payload, a 422
validation rejection issued before the handler body runs, or a 404. -/
inductive ApiResult (α : Type) where
  | ok : α → ApiResult α
  | validationError : ApiResult α
  | notFound : ApiResult α
deriving DecidableEq, Repr

/-- Model of `http_get_note` (`main.py`): `id` is validated `ge=1` before the body
runs; then `get_note`, mapping `None` to 404. -/
def http_get_note (s : Store) (id : Int) : ApiResult Note :=
  if id < 1 then ApiResult.validationError
  else
    match get_note s id with
    | none => ApiResult.notFound
    | some n => ApiResult.ok n

/-- Model of `http_update_note` (`main.py`): `id` validated `ge=1` before the body
runs; then `update_note`, mapping `None` to 404. -/
def http_update_note (s : Store) (id : Int) (payload : NoteUpdate) (now : Nat) :
    ApiResult Note × Store :=
  if id < 1 then (ApiResult.validationError, s)
  else
    match update_note s id payload now with
    | (none, s1) => (ApiResult.notFound, s1)
    | (some n, s1) => (ApiResult.ok n, s1)

/-- Model of `http_delete_note` (`main.py`): `id` validated `ge=1` before the body
runs; then `delete_note`, mapping `false` to 404 and `true` to 204. -/
def http_delete_note (s : Store) (id : Int) : ApiResult Unit × Store :=
  if id < 1 then (ApiResult.validationError, s)
  else
    match delete_note s id with
    | (false, s1) => (ApiResult.notFound, s1)
    | (true, s1) => (ApiResult.ok (), s1)

/-- Well-formedness of a store maintained by sqlite's auto-increment:
every stored id is positive and below the next id to be assigned. -/
def Store.WF (s : Store) : Prop :=
  ∀ n ∈ s.rows, 1 ≤ n.id ∧ n.id < s.nextId

/-- The data-model invariant of the spec: `title` and `content` of every
persisted note are non-empty. -/
def Store.fieldsNonEmpty (s : Store) : Prop :=
  ∀ n ∈ s.rows, n.title ≠ "" ∧ n.content ≠ ""

/-! ### Helper lemmas -/

theorem mem_of_get_note {s : Store} {id : Int} {n : Note}
    (h : get_note s id = some n) : n ∈ s.rows :=
  List.mem_of_find?_eq_some h

theorem id_of_get_note {s : Store} {id : Int} {n : Note}
    (h : get_note s id = some n) : n.id = id := by
  simpa using List.find?_some h

theorem get_note_eq_none {s : Store} {id : Int} :
    get_note s id = none ↔ ∀ n ∈ s.rows, n.id ≠ id := by
  simp [get_note]

/-- Reading back the row touched by an `UPDATE ... WHERE id = ?` yields the
rewritten row, because the write keeps the id column unchanged. -/
theorem get_note_update {s : Store} {id : Int} {ex : Note}
    (hget : get_note s id = some ex) (t c : String) (now : Nat) :
    get_note
      { s with rows := s.rows.map fun n =>
          if n.id == id then writeRow n t c now else n } id =
      some (writeRow ex t c now) := by
  have hid := id_of_get_note hget
  unfold get_note at hget ⊢
  rw [List.find?_map]
  have hfun : ((fun n : Note => n.id == id) ∘ fun n =>
      if n.id == id then writeRow n t c now else n) = fun n => n.id == id := by
    funext n
    by_cases hn : n.id = id <;> simp [writeRow, hn]
  rw [hfun, hget]
  simp [writeRow, hid]

/-- On an existing row, `update_note` rewrites exactly the matching row with
the merged field values and returns that merged row. -/
theorem update_note_some {s : Store} {id : Int} {ex : Note}
    (p : NoteUpdate) (now : Nat) (hget : get_note s id = some ex) :
    update_note s id p now =
      (some (writeRow ex (p.title.getD ex.title) (p.content.getD ex.content) now),
       { s with rows := s.rows.map fun n =>
           if n.id == id then
             writeRow n (p.title.getD ex.title) (p.content.getD ex.content) now
           else n }) := by
  unfold update_note
  rw [hget]
  refine Prod.ext ?_ rfl
  exact get_note_update hget _ _ _

/-! ### Claim theorems -/

/-- C1: on an existing note, `update` refreshes the stored note's
`updated_at` to the current time (hence `>=` the prior value, the clock being
at or past every stored timestamp) while leaving `created_at` and `id`
unchanged; with `content` absent, `update(id, \x7btitle: T\x7d)` changes
`title` to `T` and leaves `content` unchanged. -/
theorem update_refresh_frame (s : Store) (id : Int) (p : NoteUpdate) (now : Nat)
    (ex : Note) (hget : get_note s id = some ex)
    (hclock : ex.updated_at ≤ now) :
    ∃ n1, (update_note s id p now).1 = some n1 ∧
      get_note (update_note s id p now).2 id = some n1 ∧
      n1.updated_at = now ∧
      ex.updated_at ≤ n1.updated_at ∧
      n1.created_at = ex.created_at ∧
      n1.id = ex.id ∧
      ∀ T, p.title = some T → p.content = none →
        n1.title = T ∧ n1.content = ex.content := by
  have h := update_note_some p now hget
  refine ⟨writeRow ex (p.title.getD ex.title) (p.content.getD ex.content) now,
    by rw [h], ?_, rfl, hclock, rfl, rfl, ?_⟩
  · rw [h]
    exact get_note_update hget _ _ _
  · intro T hT hC
    simp [writeRow, hT, hC]

/-- C1 witness: a concrete instance of `update_refresh_frame`. -/
theorem update_refresh_frame_witness :
    ∃ n1, (update_note ⟨[⟨1, "a", "b", 0, 0⟩], 2⟩ 1 ⟨some "T", none⟩ 5).1 = some n1 ∧
      get_note (update_note ⟨[⟨1, "a", "b", 0, 0⟩], 2⟩ 1 ⟨some "T", none⟩ 5).2 1 =
        some n1 ∧
      n1.updated_at = 5 ∧
      (0 : Nat) ≤ n1.updated_at ∧
      n1.created_at = 0 ∧
      n1.id = 1 ∧
      ∀ T, (some "T" : Option String) = some T → (none : Option String) = none →
        n1.title = T ∧ n1.content = "b" :=
  update_refresh_frame ⟨[⟨1, "a", "b", 0, 0⟩], 2⟩ 1 ⟨some "T", none⟩ 5
    ⟨1, "a", "b", 0, 0⟩ (by decide) (by decide)

/-- C3: on an existing note, `update` returns the merged note — each of
`title`/`content` taken from the payload when present, retained from the
stored note when absent — and that merged note is what the store then
holds. -/
theorem update_merge_semantics (s : Store) (id : Int) (p : NoteUpdate)
    (now : Nat) (ex : Note) (hget : get_note s id = some ex) :
    (update_note s id p now).1 =
      some { ex with title := p.title.getD ex.title,
                     content := p.content.getD ex.content,
                     updated_at := now } ∧
    get_note (update_note s id p now).2 id = (update_note s id p now).1 := by
  have h := update_note_some p now hget
  constructor
  · rw [h]
    rfl
  · rw [h]
    exact get_note_update hget _ _ _

/-- C3 witness: a concrete instance of `update_merge_semantics`. -/
theorem update_merge_semantics_witness :
    (update_note ⟨[⟨1, "a", "b", 0, 0⟩], 2⟩ 1 ⟨none, some "c"⟩ 7).1 =
      some ⟨1, "a", "c", 0, 7⟩ ∧
    get_note (update_note ⟨[⟨1, "a", "b", 0, 0⟩], 2⟩ 1 ⟨none, some "c"⟩ 7).2 1 =
      (update_note ⟨[⟨1, "a", "b", 0, 0⟩], 2⟩ 1 ⟨none, some "c"⟩ 7).1 :=
  update_merge_semantics ⟨[⟨1, "a", "b", 0, 0⟩], 2⟩ 1 ⟨none, some "c"⟩ 7
    ⟨1, "a", "b", 0, 0⟩ (by decide)

/-- In a well-formed store no existing row carries the id the auto-increment
counter is about to assign, so the readback after an insert finds the fresh
row. -/
theorem get_note_insertRow {s : Store} (hwf : Store.WF s)
    (t c : String) (now : Nat) :
    get_note (insertRow s t c now) s.nextId =
      some { id := s.nextId, title := t, content := c,
             created_at := now, updated_at := now } := by
  have hnone : s.rows.find? (fun n => n.id == s.nextId) = none := by
    rw [List.find?_eq_none]
    intro n hn
    have h2 := (hwf n hn).2
    simp only [beq_iff_eq]
    omega
  unfold get_note insertRow
  rw [List.find?_append, hnone]
  simp

/-- C4: for a valid `NoteCreate` payload and a well-formed store, `create`
succeeds and a `get` on the returned note's id yields a note whose `title`
and `content` equal the payload's, with `created_at == updated_at`. -/
theorem create_then_get (s : Store) (p : NoteCreate) (now : Nat)
    (hwf : Store.WF s) (hv : p.Valid) :
    ∃ n s1, create_note s p now = Except.ok (n, s1) ∧
      get_note s1 n.id = some n ∧
      n.title = p.title ∧ n.content = p.content ∧
      n.created_at = n.updated_at := by
  have hget := get_note_insertRow hwf p.title p.content now
  refine ⟨{ id := s.nextId, title := p.title, content := p.content,
            created_at := now, updated_at := now },
    insertRow s p.title p.content now, ?_, hget, rfl, rfl, rfl⟩
  simp only [create_note]
  rw [hget]

/-- C4 witness: a concrete instance of `create_then_get`. -/
theorem create_then_get_witness :
    ∃ n s1, create_note ⟨[⟨1, "a", "b", 0, 0⟩], 2⟩ ⟨"t", "c"⟩ 3 =
        Except.ok (n, s1) ∧
      get_note s1 n.id = some n ∧
      n.title = "t" ∧ n.content = "c" ∧
      n.created_at = n.updated_at :=
  create_then_get ⟨[⟨1, "a", "b", 0, 0⟩], 2⟩ ⟨"t", "c"⟩ 3
    (by unfold Store.WF; decide) (by unfold NoteCreate.Valid; decide)

/-- C8: `create` raises the internal-consistency failure (an error, distinct
from the not-found `none` of the lookup operations) exactly when the readback
of the just-inserted row fails; when the readback succeeds, `create` returns
the note read back from the store after the insert. -/
theorem create_readback (s : Store) (p : NoteCreate) (now : Nat) :
    ((∃ e, create_note s p now = Except.error e) ↔
      get_note (insertRow s p.title p.content now) s.nextId = none) ∧
    ∀ n, get_note (insertRow s p.title p.content now) s.nextId = some n →
      create_note s p now = Except.ok (n, insertRow s p.title p.content now) := by
  constructor
  · constructor
    · rintro ⟨e, he⟩
      simp only [create_note] at he
      cases hx : get_note (insertRow s p.title p.content now) s.nextId with
      | none => rfl
      | some n => rw [hx] at he; cases he
    · intro hx
      simp only [create_note]
      rw [hx]
      exact ⟨_, rfl⟩
  · intro n hx
    simp only [create_note]
    rw [hx]

/-- C8 witness: a concrete instance of `create_readback`, the readback
succeeding on the fresh row. -/
theorem create_readback_witness :
    create_note ⟨[], 1⟩ ⟨"t", "c"⟩ 4 =
      Except.ok (⟨1, "t", "c", 4, 4⟩, insertRow ⟨[], 1⟩ "t" "c" 4) :=
  (create_readback ⟨[], 1⟩ ⟨"t", "c"⟩ 4).2 ⟨1, "t", "c", 4, 4⟩ (by decide)

/-- Deleting by id strictly shrinks the table exactly when a matching row
exists. -/
theorem length_filter_ne_lt {l : List Note} {id : Int} :
    ((l.filter fun n => !(n.id == id)).length < l.length ↔
      ∃ n ∈ l, n.id = id) := by
  constructor
  · intro h
    by_contra hc
    push_neg at hc
    have heq : (l.filter fun n => !(n.id == id)) = l := by
      rw [List.filter_eq_self]
      intro a ha
      simp [hc a ha]
    rw [heq] at h
    exact Nat.lt_irrefl _ h
  · rintro ⟨n, hn, hid⟩
    have hle := List.length_filter_le (fun n : Note => !(n.id == id)) l
    have hne : ((l.filter fun n => !(n.id == id)).length ≠ l.length) := by
      intro he
      have := List.filter_length_eq_length.mp he n hn
      simp [hid] at this
    omega

/-- C6: `delete(id)` returns `true` exactly when a row with that id existed;
after it, `get(id)` is absent and a second `delete(id)` returns `false`. -/
theorem delete_get_idempotent (s : Store) (id : Int) :
    ((delete_note s id).1 = true ↔ ∃ n ∈ s.rows, n.id = id) ∧
    get_note (delete_note s id).2 id = none ∧
    (delete_note (delete_note s id).2 id).1 = false := by
  refine ⟨?_, ?_, ?_⟩
  · simpa [delete_note] using @length_filter_ne_lt s.rows id
  · rw [get_note_eq_none]
    intro n hn
    simp only [delete_note, List.mem_filter] at hn
    simpa using hn.2
  · have hno : ¬ ∃ n ∈ (delete_note s id).2.rows, n.id = id := by
      rintro ⟨n, hn, hid⟩
      simp only [delete_note, List.mem_filter] at hn
      simp [hid] at hn
    simp only [delete_note, decide_eq_false_iff_not]
    intro hlt
    exact hno (length_filter_ne_lt.mp hlt)

/-- C7: `update` and `delete` on an id with no matching row return the
not-found signal (`none` / `false`) and leave the store unchanged. -/
theorem notfound_no_side_effects (s : Store) (id : Int) (p : NoteUpdate)
    (now : Nat) (h : get_note s id = none) :
    update_note s id p now = (none, s) ∧ delete_note s id = (false, s) := by
  have hno : ∀ n ∈ s.rows, n.id ≠ id := get_note_eq_none.mp h
  constructor
  · unfold update_note
    rw [h]
  · have heq : (s.rows.filter fun n => !(n.id == id)) = s.rows := by
      rw [List.filter_eq_self]
      intro a ha
      simp [hno a ha]
    unfold delete_note
    rw [heq]
    simp

/-- C7 witness: a concrete instance of `notfound_no_side_effects`. -/
theorem notfound_no_side_effects_witness :
    update_note ⟨[⟨1, "a", "b", 0, 0⟩], 2⟩ 9 ⟨some "T", none⟩ 5 =
      (none, ⟨[⟨1, "a", "b", 0, 0⟩], 2⟩) ∧
    delete_note ⟨[⟨1, "a", "b", 0, 0⟩], 2⟩ 9 =
      (false, ⟨[⟨1, "a", "b", 0, 0⟩], 2⟩) :=
  notfound_no_side_effects ⟨[⟨1, "a", "b", 0, 0⟩], 2⟩ 9 ⟨some "T", none⟩ 5
    (by decide)

/-- C10: at the Storage Gateway level `get` and `delete` are total over the
integers: on a well-formed store, for any id that is non-positive or matches
no row, `get` returns `none`, `delete` returns `false`, and the store is
unchanged — no error in either case. -/
theorem get_delete_total (s : Store) (id : Int) (hwf : Store.WF s)
    (h : id < 1 ∨ ∀ n ∈ s.rows, n.id ≠ id) :
    get_note s id = none ∧ delete_note s id = (false, s) := by
  have hno : ∀ n ∈ s.rows, n.id ≠ id := by
    rcases h with h | h
    · intro n hn
      have h1 := (hwf n hn).1
      omega
    · exact h
  have hget : get_note s id = none := get_note_eq_none.mpr hno
  refine ⟨hget, ?_⟩
  have heq : (s.rows.filter fun n => !(n.id == id)) = s.rows := by
    rw [List.filter_eq_self]
    intro a ha
    simp [hno a ha]
  unfold delete_note
  rw [heq]
  simp

/-- C10 witness: a concrete instance of `get_delete_total` at id `-3`. -/
theorem get_delete_total_witness :
    get_note ⟨[⟨1, "a", "b", 0, 0⟩], 2⟩ (-3) = none ∧
    delete_note ⟨[⟨1, "a", "b", 0, 0⟩], 2⟩ (-3) =
      (false, ⟨[⟨1, "a", "b", 0, 0⟩], 2⟩) :=
  get_delete_total ⟨[⟨1, "a", "b", 0, 0⟩], 2⟩ (-3) (by unfold Store.WF; decide)
    (Or.inl (by decide))

theorem noteOrd_trans (a b c : Note) :
    noteOrd a b → noteOrd b c → noteOrd a c := by
  simp only [noteOrd, Bool.or_eq_true, Bool.and_eq_true, decide_eq_true_eq]
  omega

theorem noteOrd_total (a b : Note) : noteOrd a b || noteOrd b a := by
  simp only [noteOrd, Bool.or_eq_true, Bool.and_eq_true, decide_eq_true_eq]
  omega

/-- C5: `list` returns exactly the persisted rows, ordered by `updated_at`
descending with ties broken by `id` descending (every earlier element has a
strictly larger `updated_at`, or an equal `updated_at` and a `>=` id), and an
empty store yields the empty sequence. -/
theorem list_notes_ordering (s : Store) :
    (list_notes s).Perm s.rows ∧
    (list_notes s).Pairwise (fun a b =>
      b.updated_at < a.updated_at ∨
        (a.updated_at = b.updated_at ∧ b.id ≤ a.id)) ∧
    list_notes { rows := [], nextId := s.nextId } = [] := by
  refine ⟨List.mergeSort_perm s.rows noteOrd, ?_, by simp [list_notes]⟩
  have hs := List.sorted_mergeSort noteOrd_trans noteOrd_total s.rows
  refine hs.imp ?_
  intro a b h
  simpa only [noteOrd, Bool.or_eq_true, Bool.and_eq_true, decide_eq_true_eq]
    using h

/-- C2: a get, update or delete request whose id is not a positive integer
is rejected with the validation error and the store is untouched — the
storage operations are never reached. -/
theorem invalid_id_rejected (s : Store) (id : Int) (p : NoteUpdate) (now : Nat)
    (h : id < 1) :
    http_get_note s id = ApiResult.validationError ∧
    http_update_note s id p now = (ApiResult.validationError, s) ∧
    http_delete_note s id = (ApiResult.validationError, s) := by
  refine ⟨?_, ?_, ?_⟩ <;>
    simp [http_get_note, http_update_note, http_delete_note, h]

/-- C2 witness: a concrete instance of `invalid_id_rejected` at id `0`. -/
theorem invalid_id_rejected_witness :
    http_get_note ⟨[⟨1, "a", "b", 0, 0⟩], 2⟩ 0 = ApiResult.validationError ∧
    http_update_note ⟨[⟨1, "a", "b", 0, 0⟩], 2⟩ 0 ⟨some "T", none⟩ 5 =
      (ApiResult.validationError, ⟨[⟨1, "a", "b", 0, 0⟩], 2⟩) ∧
    http_delete_note ⟨[⟨1, "a", "b", 0, 0⟩], 2⟩ 0 =
      (ApiResult.validationError, ⟨[⟨1, "a", "b", 0, 0⟩], 2⟩) :=
  invalid_id_rejected ⟨[⟨1, "a", "b", 0, 0⟩], 2⟩ 0 ⟨some "T", none⟩ 5
    (by decide)

/-- C9: with validated payloads, every operation preserves the invariant
that the `title` and `content` of each persisted note are non-empty, and
every note surfaced by `list` or `get` satisfies it. -/
theorem fields_nonempty_invariant (s : Store) (pc : NoteCreate)
    (pu : NoteUpdate) (id : Int) (now : Nat)
    (hs : Store.fieldsNonEmpty s) (hpc : pc.Valid) (hpu : pu.Valid) :
    (∀ n s1, create_note s pc now = Except.ok (n, s1) →
      Store.fieldsNonEmpty s1) ∧
    Store.fieldsNonEmpty (update_note s id pu now).2 ∧
    Store.fieldsNonEmpty (delete_note s id).2 ∧
    (∀ n ∈ list_notes s, n.title ≠ "" ∧ n.content ≠ "") ∧
    (∀ n, get_note s id = some n → n.title ≠ "" ∧ n.content ≠ "") := by
  refine ⟨?_, ?_, ?_, ?_, ?_⟩
  · intro n s1 hok
    simp only [create_note] at hok
    have hs1 : s1 = insertRow s pc.title pc.content now := by
      cases hx : get_note (insertRow s pc.title pc.content now) s.nextId with
      | none => rw [hx] at hok; cases hok
      | some m => rw [hx] at hok; cases hok; rfl
    subst hs1
    intro m hm
    simp only [insertRow, List.mem_append, List.mem_singleton] at hm
    rcases hm with hm | hm
    · exact hs m hm
    · subst hm
      exact hpc
  · cases hx : get_note s id with
    | none =>
      unfold update_note
      rw [hx]
      exact hs
    | some ex =>
      rw [update_note_some pu now hx]
      intro m hm
      simp only [List.mem_map] at hm
      obtain ⟨n, hn, hfn⟩ := hm
      by_cases hni : n.id = id
      · rw [← hfn]
        simp only [hni, beq_self_eq_true, if_true, writeRow]
        have hexmem := mem_of_get_note hx
        constructor
        · cases ht : pu.title with
          | none => simpa [ht] using (hs ex hexmem).1
          | some t => simpa [ht] using hpu.1 t (by simp [ht])
        · cases hc : pu.content with
          | none => simpa [hc] using (hs ex hexmem).2
          | some c => simpa [hc] using hpu.2 c (by simp [hc])
      · rw [← hfn]
        simp only [beq_iff_eq, hni, if_false]
        exact hs n hn
  · intro m hm
    simp only [delete_note, List.mem_filter] at hm
    exact hs m hm.1
  · intro n hn
    have : n ∈ s.rows := (List.mergeSort_perm s.rows noteOrd).mem_iff.mp hn
    exact hs n this
  · intro n hget
    exact hs n (mem_of_get_note hget)

/-- C9 witness: a concrete instance of `fields_nonempty_invariant`. -/
theorem fields_nonempty_invariant_witness :
    (∀ n s1, create_note ⟨[⟨1, "a", "b", 0, 0⟩], 2⟩ ⟨"t", "c"⟩ 3 =
        Except.ok (n, s1) → Store.fieldsNonEmpty s1) ∧
    Store.fieldsNonEmpty
      (update_note ⟨[⟨1, "a", "b", 0, 0⟩], 2⟩ 1 ⟨some "T", none⟩ 3).2 ∧
    Store.fieldsNonEmpty (delete_note ⟨[⟨1, "a", "b", 0, 0⟩], 2⟩ 1).2 ∧
    (∀ n ∈ list_notes ⟨[⟨1, "a", "b", 0, 0⟩], 2⟩,
      n.title ≠ "" ∧ n.content ≠ "") ∧
    (∀ n, get_note ⟨[⟨1, "a", "b", 0, 0⟩], 2⟩ 1 = some n →
      n.title ≠ "" ∧ n.content ≠ "") :=
  fields_nonempty_invariant ⟨[⟨1, "a", "b", 0, 0⟩], 2⟩ ⟨"t", "c"⟩
    ⟨some "T", none⟩ 1 3
    (by unfold Store.fieldsNonEmpty; decide)
    (by unfold NoteCreate.Valid; decide)
    (by unfold NoteUpdate.Valid; decide)

end NotesApp
